import Mathlib

/-!
Verification of the dependency-injection container in
src/sciline/container.py: the type-key model, the provider registry built by
Container.insert, task-graph construction by Container._get and
Container._call, and execution of the resulting dask graph.  Python floats
are modelled as rationals (all arithmetic in the scenarios is exact), and a
type argument is either a TypeVar or an opaque concrete key, matching the
one-level inspection the source performs on argument tuples.
-/

/-- Argument of a parametrised type annotation.  The source inspects type
arguments one level deep only (isinstance checks for TypeVar plus equality
comparisons), so an argument is a TypeVar or an opaque concrete key. -/
inductive TypeArg where
  | con (s : String)
  | tvar (v : String)
deriving DecidableEq, Repr

/-- A Python type annotation as the container sees it: a plain class, a bare
TypeVar, or a parametrised generic with an origin class and arguments. -/
inductive TypeExpr where
  | con (s : String)
  | tvar (v : String)
  | app (origin : String) (args : List TypeArg)
deriving DecidableEq, Repr

/-- Mirrors typing.get_origin: the origin class of a parametrised type,
none for plain classes and TypeVars. -/
def getOrigin : TypeExpr → Option TypeExpr
  | .app o _ => some (.con o)
  | _ => none

/-- Mirrors typing.get_args: the argument tuple of a parametrised type. -/
def getArgs : TypeExpr → List TypeArg
  | .app _ as => as
  | _ => []

/-- A bound type argument used as a request of its own, as happens when
Container._call substitutes a binding for a bare TypeVar annotation. -/
def TypeArg.toExpr : TypeArg → TypeExpr
  | .con s => .con s
  | .tvar v => .tvar v

/-- Runtime values produced by providers.  Python floats are rationals here;
every float computation in the scenarios is exact. -/
inductive Value where
  | vnone
  | vint (n : Int)
  | vfloat (q : ℚ)
  | vstr (s : String)
  | vpair (a b : Value)
  | vtag (cls : String) (val : Value)
deriving DecidableEq, Repr

/-- Python str() of an int. -/
def fmtInt (n : Int) : String := toString n

/-- Python str() of a float with one decimal digit; every float formatted in
the scenarios has exactly one. -/
def fmtFloat (q : ℚ) : String :=
  let scaled : Int := q.num * 10 / q.den
  toString (scaled / 10) ++ "." ++ toString (scaled % 10)

/-- A Python callable as get_type_hints presents it: ordered input
annotations, an optional output annotation (none when the callable lacks
one; an annotation of None is normalised by get_type_hints to NoneType),
and the runtime behaviour on the list of argument values. -/
structure PyFunc where
  fname : String
  inputs : List (String × TypeExpr)
  ret : Option TypeExpr
  impl : List Value → Value

/-- An entry of the _providers dict: either a provider function registered at
a plain key, or the dict of subproviders stored under a generic origin,
keyed by argument tuple in insertion order. -/
inductive Entry where
  | direct (f : PyFunc)
  | generic (subs : List (List TypeArg × PyFunc))

/-- A task node: the delayed provider together with the keys of its argument
tasks in declared order.  The cache maps each resolved key to one node,
which is what makes dask recognise repeated uses as one task. -/
abbrev Node := PyFunc × List TypeExpr

/-- State of a Container: the provider registry and the cache of created
tasks (the _providers and _cache dicts). -/
structure Container where
  providers : List (TypeExpr × Entry)
  cache : List (TypeExpr × Node)

/-- The exceptions container.py can raise, one constructor per raise site,
plus the KeyError of the scheduler for a key absent from a graph. -/
inductive Err where
  | unsatisfiedRequirement (tp : TypeExpr)
  | valueErrorExists (key : TypeExpr)
  | keyErrorMultiple (tp : TypeExpr) (requested : List TypeArg)
  | keyErrorUnboundVar (v : String)
  | keyErrorReturn
  | keyErrorMissingNode (tp : TypeExpr)
  | typeErrorHints
  | typeErrorNotIterable
  | attributeErrorItems
deriving DecidableEq, Repr

/-- The Python exception class of each error. -/
def Err.pyClass : Err → String
  | .unsatisfiedRequirement _ => "UnsatisfiedRequirement"
  | .valueErrorExists _ => "ValueError"
  | .keyErrorMultiple _ _ => "KeyError"
  | .keyErrorUnboundVar _ => "KeyError"
  | .keyErrorReturn => "KeyError"
  | .keyErrorMissingNode _ => "KeyError"
  | .typeErrorHints => "TypeError"
  | .typeErrorNotIterable => "TypeError"
  | .attributeErrorItems => "AttributeError"

/-- First-match association lookup, the view of a Python dict whose keys are
unique. -/
def alookup {α β : Type} [DecidableEq α] : List (α × β) → α → Option β
  | [], _ => none
  | (a, b) :: rest, k => if k = a then some b else alookup rest k

/-- Association lookup where later entries win, matching a Python dict built
by dict(zip(...)) in which a repeated key keeps its last value. -/
def lookupLast {α β : Type} [DecidableEq α] : List (α × β) → α → Option β
  | [], _ => none
  | (a, b) :: rest, k =>
    match lookupLast rest k with
    | some v => some v
    | none => if k = a then some b else none

/-- Replace the value stored at a key of an association list, keeping its
position, as Python in-place mutation of a dict value does. -/
def aupdate {α β : Type} [DecidableEq α] (l : List (α × β)) (k : α) (b : β) :
    List (α × β) :=
  l.map (fun p => if p.1 = k then (k, b) else p)

/-- Translation of _is_compatible_type_tuple: walk the requested and provided
argument tuples in lockstep (zip truncates at the shorter tuple), skip the
provider's TypeVar positions, and require equality elsewhere. -/
def isCompatibleTypeTuple : List TypeArg → List TypeArg → Bool
  | req :: reqs, prov :: provs =>
    match prov with
    | .tvar _ => isCompatibleTypeTuple reqs provs
    | _ => req == prov && isCompatibleTypeTuple reqs provs
  | _, _ => true

/-- The providers-table update performed by Container.insert: a callable
without a return annotation hits a KeyError on the hints dict; a
parametrised output key goes into the subprovider dict of its origin,
anything else into the top-level dict; a key that is already taken raises
ValueError. -/
def insertProviders (ps : List (TypeExpr × Entry)) (provider : PyFunc) :
    Except Err (List (TypeExpr × Entry)) :=
  match provider.ret with
  | none => .error .keyErrorReturn
  | some key =>
    if !(getOrigin key).isSome && (alookup ps key).isSome then
      .error (.valueErrorExists key)
    else if (getOrigin key).isSome then
      match getOrigin key with
      | none => .error .typeErrorNotIterable
      | some o =>
        match alookup ps o with
        | none => .ok (ps ++ [(o, .generic [(getArgs key, provider)])])
        | some (.generic subs) =>
          if subs.any (fun p => decide (p.1 = getArgs key)) then
            .error (.valueErrorExists key)
          else
            .ok (aupdate ps o (.generic (subs ++ [(getArgs key, provider)])))
        | some (.direct _) => .error .typeErrorNotIterable
    else
      .ok (ps ++ [(key, .direct provider)])

/-- Translation of Container.insert: update the providers table, leaving the
cache untouched. -/
def Container.insert (c : Container) (provider : PyFunc) : Except Err Container :=
  match insertProviders c.providers provider with
  | .error e => .error e
  | .ok ps => .ok { c with providers := ps }

/-- Container construction from a list of functions (Container.__init__
inserts them in order). -/
def mkContainer (funcs : List PyFunc) : Except Err Container :=
  funcs.foldlM (fun c f => c.insert f) { providers := [], cache := [] }

/-- The annotation rewriting inside Container._call: a bare TypeVar is
replaced by its bound key (Python raises KeyError when the variable is not
bound), in a parametrised annotation every TypeVar argument is replaced
likewise, and any other annotation passes through unchanged. -/
def substInput (bound : List (TypeArg × TypeArg)) : TypeExpr → Except Err TypeExpr
  | .tvar v =>
    match lookupLast bound (.tvar v) with
    | some a => .ok a.toExpr
    | none => .error (.keyErrorUnboundVar v)
  | .app o as => do
    let bs ← as.mapM (fun a =>
      match a with
      | .tvar v =>
        match lookupLast bound (.tvar v) with
        | some b => Except.ok b
        | none => Except.error (Err.keyErrorUnboundVar v)
      | other => Except.ok other)
    .ok (.app o bs)
  | other => .ok other

/-- Shared tail of Container._get: the call of func(**args) yields the task
node, which _get then stores in the cache under the requested key. -/
def finishGet (tp : TypeExpr) (prov : PyFunc)
    (r : Option (Except Err (List TypeExpr × Container))) :
    Option (Except Err (Node × Container)) :=
  match r with
  | none => none
  | some (.error e) => some (.error e)
  | some (.ok (deps, c')) =>
    let node : Node := (prov, deps)
    some (.ok (node, { c' with cache := (tp, node) :: c'.cache }))

/-- The argument loop of Container._call, abstracted over the recursive
resolver: rewrite each input annotation under the bindings, resolve it, and
thread the container state, collecting the dependency keys in order. -/
def callArgsAux
    (g : Container → TypeExpr → Option (Except Err (Node × Container)))
    (bound : List (TypeArg × TypeArg)) :
    Container → List (String × TypeExpr) →
    Option (Except Err (List TypeExpr × Container))
  | c, [] => some (.ok ([], c))
  | c, (_, ann) :: rest =>
    match substInput bound ann with
    | .error e => some (.error e)
    | .ok tp' =>
      match g c tp' with
      | none => none
      | some (.error e) => some (.error e)
      | some (.ok (_, c')) =>
        match callArgsAux g bound c' rest with
        | none => none
        | some (.error e) => some (.error e)
        | some (.ok (deps, c'')) => some (.ok (tp' :: deps, c''))

/-- One level of Container._get, abstracted over the recursive resolver that
Container._call uses for the provider's arguments. -/
def getBody
    (g : Container → TypeExpr → Option (Except Err (Node × Container)))
    (c : Container) (tp : TypeExpr) :
    Option (Except Err (Node × Container)) :=
  match alookup c.cache tp with
  | some node => some (.ok (node, c))
  | none =>
    match alookup c.providers tp with
    | some (.direct prov) => finishGet tp prov (callArgsAux g [] c prov.inputs)
    | some (.generic _) => some (.error .typeErrorHints)
    | none =>
      match getOrigin tp with
      | none => some (.error (.unsatisfiedRequirement tp))
      | some o =>
        match alookup c.providers o with
        | none => some (.error (.unsatisfiedRequirement tp))
        | some (.direct _) => some (.error .attributeErrorItems)
        | some (.generic subs) =>
          match subs.filter (fun p => isCompatibleTypeTuple (getArgs tp) p.1) with
          | [] => some (.error (.unsatisfiedRequirement tp))
          | [(args, sub)] =>
            finishGet tp sub (callArgsAux g (args.zip (getArgs tp)) c sub.inputs)
          | _ => some (.error (.keyErrorMultiple tp (getArgs tp)))

/-- Fuelled translation of Container._get.  The answer none means the fuel
ran out, which models non-termination of the unbounded Python recursion. -/
def getF : Nat → Container → TypeExpr → Option (Except Err (Node × Container))
  | 0 => fun _ _ => none
  | Nat.succ f => getBody (getF f)

/-- The argument loop of Container._call with the fuelled resolver plugged
in. -/
def callArgs (fuel : Nat) (c : Container) (inputs : List (String × TypeExpr))
    (bound : List (TypeArg × TypeArg)) :
    Option (Except Err (List TypeExpr × Container)) :=
  callArgsAux (getF fuel) bound c inputs

abbrev Memo := List (TypeExpr × Value)

abbrev Graph := List (TypeExpr × Node)

/-- Execution of a list of tasks in order with a shared memo table,
abstracted over the single-task evaluator; one compute call over several
requested keys runs exactly this loop. -/
def evalDepsAux
    (ev : Memo → TypeExpr → Option (Except Err (Value × Memo × List TypeExpr))) :
    Memo → List TypeExpr →
    Option (Except Err (List Value × Memo × List TypeExpr))
  | memo, [] => some (.ok ([], memo, []))
  | memo, k :: rest =>
    match ev memo k with
    | none => none
    | some (.error e) => some (.error e)
    | some (.ok (v, memo1, tr1)) =>
      match evalDepsAux ev memo1 rest with
      | none => none
      | some (.error e) => some (.error e)
      | some (.ok (vs, memo2, tr2)) => some (.ok (v :: vs, memo2, tr1 ++ tr2))

/-- One level of the synchronous scheduler on a dask graph, abstracted over
the recursive evaluator for the dependencies: each key is computed at most
once per compute call, and the trace records, in order, the keys whose
provider was invoked.  The scheduler is the external dask library; this
follows its documented semantics for a delayed graph. -/
def evalBody
    (ev : Memo → TypeExpr → Option (Except Err (Value × Memo × List TypeExpr)))
    (g : Graph) (memo : Memo) (tp : TypeExpr) :
    Option (Except Err (Value × Memo × List TypeExpr)) :=
  match alookup memo tp with
  | some v => some (.ok (v, memo, []))
  | none =>
    match alookup g tp with
    | none => some (.error (.keyErrorMissingNode tp))
    | some (prov, deps) =>
      match evalDepsAux ev memo deps with
      | none => none
      | some (.error e) => some (.error e)
      | some (.ok (vals, memo1, tr)) =>
        match alookup memo1 tp with
        | some v => some (.ok (v, memo1, tr))
        | none =>
          let v := prov.impl vals
          some (.ok (v, (tp, v) :: memo1, tr ++ [tp]))

/-- Fuelled evaluator for one task of a dask graph. -/
def evalK : Nat → Graph → Memo → TypeExpr →
    Option (Except Err (Value × Memo × List TypeExpr))
  | 0 => fun _ _ _ => none
  | Nat.succ f => fun g => evalBody (evalK f g) g

/-- Fuelled evaluator for a list of requested keys with a shared memo. -/
def evalDeps (fuel : Nat) (g : Graph) (memo : Memo) (keys : List TypeExpr) :
    Option (Except Err (List Value × Memo × List TypeExpr)) :=
  evalDepsAux (evalK fuel g) memo keys

/-- Translation of Container.compute: build the task for the key with
Container._get, then run the scheduler on the resulting graph, which is the
cache the build filled in. -/
def Container.compute (c : Container) (fuel : Nat) (tp : TypeExpr) :
    Option (Except Err Value) :=
  match getF fuel c tp with
  | none => none
  | some (.error e) => some (.error e)
  | some (.ok (_, c')) =>
    match evalK fuel c'.cache [] tp with
    | none => none
    | some (.error e) => some (.error e)
    | some (.ok (v, _, _)) => some (.ok v)

/-- The substitution applied to one argument of a parametrised key: replace a
bound variable, leave everything else in place. -/
def substArg (bound : List (TypeArg × TypeArg)) : TypeArg → TypeArg
  | .tvar v =>
    match lookupLast bound (.tvar v) with
    | some b => b
    | none => .tvar v
  | other => other

/-- Modelled from the spec: the substitute operation of section 4.1 replaces
every type variable of a key according to the bindings and leaves unbound
variables in place.  It is used to state unification soundness, which
compares it with what the source actually resolves. -/
def specSubstitute (bound : List (TypeArg × TypeArg)) : TypeExpr → TypeExpr
  | .tvar v =>
    match lookupLast bound (.tvar v) with
    | some a => a.toExpr
    | none => .tvar v
  | .app o as => .app o (as.map (substArg bound))
  | .con s => .con s

/-- The name of a type variable argument, none for a concrete argument. -/
def tvarName : TypeArg → Option String
  | .tvar v => some v
  | .con _ => none

/-- Whether a fallible fuelled computation produced a successful value. -/
def resOk {X : Type} : Option (Except Err X) → Bool
  | some (.ok _) => true
  | _ => false

/-- Whether an Except produced a successful value. -/
def exceptOk {X : Type} : Except Err X → Bool
  | .ok _ => true
  | .error _ => false

/-- The provider make_int of scenario S2: f() returns 3. -/
def fInt : PyFunc :=
  { fname := "f", inputs := [], ret := some (.con "int"),
    impl := fun _ => .vint 3 }

/-- The provider int_to_float of scenario S2: g(x: int) returns 0.5 * x. -/
def gFloat : PyFunc :=
  { fname := "g", inputs := [("x", .con "int")], ret := some (.con "float"),
    impl := fun vs =>
      match vs with
      | [.vint x] => .vfloat (mkRat x 2)
      | _ => .vnone }

/-- The provider int_float_to_str of scenario S2: h(x: int, y: float) formats
both arguments separated by a semicolon. -/
def hStr : PyFunc :=
  { fname := "h", inputs := [("x", .con "int"), ("y", .con "float")],
    ret := some (.con "str"),
    impl := fun vs =>
      match vs with
      | [.vint x, .vfloat y] => .vstr (fmtInt x ++ ";" ++ fmtFloat y)
      | _ => .vnone }

/-- The S2 container, holding f, g and h. -/
def s2c : Container :=
  (mkContainer [gFloat, fInt, hStr]).toOption.getD { providers := [], cache := [] }

/-- A parameter-like provider for the tag type A of scenario S5. -/
def aSrc : PyFunc :=
  { fname := "a_src", inputs := [], ret := some (.con "A"),
    impl := fun _ => .vtag "A" .vnone }

/-- A parameter-like provider for the tag type B of scenario S5. -/
def bSrc : PyFunc :=
  { fname := "b_src", inputs := [], ret := some (.con "B"),
    impl := fun _ => .vtag "B" .vnone }

/-- The generic provider of scenario S5: generic(x: V) returns an H[V]. -/
def genericH : PyFunc :=
  { fname := "generic", inputs := [("x", .tvar "V")],
    ret := some (.app "H" [.tvar "V"]),
    impl := fun vs =>
      match vs with
      | [x] => .vtag "generic" x
      | _ => .vnone }

/-- The specialised provider of scenario S5: special(x: B) returns an H[B]. -/
def specialH : PyFunc :=
  { fname := "special", inputs := [("x", .con "B")],
    ret := some (.app "H" [.con "B"]),
    impl := fun vs =>
      match vs with
      | [x] => .vtag "special" x
      | _ => .vnone }

/-- The S5 container: the generic and the specialised H provider plus the two
tag sources. -/
def s5c : Container :=
  (mkContainer [genericH, specialH, aSrc, bSrc]).toOption.getD
    { providers := [], cache := [] }

/-- Concrete int source of scenario S4. -/
def intSrc : PyFunc :=
  { fname := "int_source", inputs := [], ret := some (.con "int"),
    impl := fun _ => .vint 1 }

/-- Concrete float source of scenario S4. -/
def floatSrc : PyFunc :=
  { fname := "float_source", inputs := [], ret := some (.con "float"),
    impl := fun _ => .vfloat 2 }

/-- Provider p1 of scenario S4: p1(x: T1) returns an A[int, T1]. -/
def p1A : PyFunc :=
  { fname := "p1", inputs := [("x", .tvar "T1")],
    ret := some (.app "A" [.con "int", .tvar "T1"]),
    impl := fun vs =>
      match vs with
      | [x] => .vtag "p1" x
      | _ => .vnone }

/-- Provider p2 of scenario S4: p2(x: T2) returns an A[T2, float]. -/
def p2A : PyFunc :=
  { fname := "p2", inputs := [("x", .tvar "T2")],
    ret := some (.app "A" [.tvar "T2", .con "float"]),
    impl := fun vs =>
      match vs with
      | [x] => .vtag "p2" x
      | _ => .vnone }

/-- The S4 container: two overlapping partially bound generic providers plus
concrete sources for int and float. -/
def s4c : Container :=
  (mkContainer [intSrc, floatSrc, p1A, p2A]).toOption.getD
    { providers := [], cache := [] }

/-- Provider f of the cycle scenario S6: f(x: int) returns a float. -/
def cycF : PyFunc :=
  { fname := "f", inputs := [("x", .con "int")], ret := some (.con "float"),
    impl := fun _ => .vnone }

/-- Provider g of the cycle scenario S6: g(x: float) returns an int. -/
def cycG : PyFunc :=
  { fname := "g", inputs := [("x", .con "float")], ret := some (.con "int"),
    impl := fun _ => .vnone }

/-- The cyclic container of scenario S6. -/
def cycC : Container :=
  (mkContainer [cycF, cycG]).toOption.getD { providers := [], cache := [] }

/-- A generic provider with a repeated type variable in its output key:
dup(x: T1) returns an A2[T1, T1]. -/
def dupP : PyFunc :=
  { fname := "dup", inputs := [("x", .tvar "T1")],
    ret := some (.app "A2" [.tvar "T1", .tvar "T1"]),
    impl := fun vs =>
      match vs with
      | [x] => .vtag "dup" x
      | _ => .vnone }

/-- Container with the repeated-variable provider and concrete sources. -/
def dupC : Container :=
  (mkContainer [intSrc, floatSrc, dupP]).toOption.getD
    { providers := [], cache := [] }

/-- A provider whose input variable T2 does not occur in its output key:
bad(x: T2) returns an A3[T1]. -/
def unboundP : PyFunc :=
  { fname := "bad", inputs := [("x", .tvar "T2")],
    ret := some (.app "A3" [.tvar "T1"]),
    impl := fun _ => .vnone }

/-- Container holding the provider with the unbindable input variable. -/
def unboundC : Container :=
  (mkContainer [intSrc, unboundP]).toOption.getD { providers := [], cache := [] }

/-- A callable with no return annotation at all. -/
def noHintP : PyFunc :=
  { fname := "no_hint", inputs := [], ret := none, impl := fun _ => .vnone }

/-- A callable annotated to return None, which get_type_hints presents as
NoneType. -/
def noneRetP : PyFunc :=
  { fname := "makes_none", inputs := [], ret := some (.con "NoneType"),
    impl := fun _ => .vnone }

/-- The container obtained by inserting the None-returning callable. -/
def noneC : Container :=
  (mkContainer [noneRetP]).toOption.getD { providers := [], cache := [] }

/-- A generic provider for the specificity check: gen_b(x: T) returns B[T]. -/
def genB : PyFunc :=
  { fname := "gen_b", inputs := [("x", .tvar "T")],
    ret := some (.app "B" [.tvar "T"]),
    impl := fun vs =>
      match vs with
      | [x] => .vtag "gen_b" x
      | _ => .vnone }

/-- A fully bound provider for the specificity check: spec_b() returns
B[int], strictly more specific than gen_b. -/
def specB : PyFunc :=
  { fname := "spec_b", inputs := [], ret := some (.app "B" [.con "int"]),
    impl := fun _ => .vstr "specific" }

/-- Container with a generic candidate and a strictly more specific one for
the same origin. -/
def specC : Container :=
  (mkContainer [intSrc, genB, specB]).toOption.getD
    { providers := [], cache := [] }

/-- The container obtained by inserting f into an empty container. -/
def c2after : Container :=
  (Container.insert { providers := [], cache := [] } fInt).toOption.getD
    { providers := [], cache := [] }

/-- The task graph the S2 container builds for the request str. -/
def s2graph : Graph :=
  match getF 10 s2c (.con "str") with
  | some (.ok (_, c')) => c'.cache
  | _ => []

/-- One scheduler run over the S2 graph requesting str. -/
def s2run : Option (Except Err (List Value × Memo × List TypeExpr)) :=
  evalDeps 20 s2graph [] [.con "str"]

/-- The values the S2 run produced. -/
def s2vals : List Value :=
  match s2run with
  | some (.ok (vs, _, _)) => vs
  | _ => []

/-- The memo table of the S2 run. -/
def s2memo : Memo :=
  match s2run with
  | some (.ok (_, m, _)) => m
  | _ => []

/-- The invocation trace of the S2 run: the keys whose providers were
invoked, in order. -/
def s2trace : List TypeExpr :=
  match s2run with
  | some (.ok (_, _, tr)) => tr
  | _ => []

/-- The result of resolving int on the S2 container. -/
def c10res : Option (Except Err (Node × Container)) := getF 5 s2c (.con "int")

/-- The task node that resolution produced. -/
def c10node : Node :=
  match c10res with
  | some (.ok (n, _)) => n
  | _ => (fInt, [])

/-- The container state after that resolution. -/
def c10cont : Container :=
  match c10res with
  | some (.ok (_, c')) => c'
  | _ => s2c


/-- A provider annotated to return the bare generic class H; typing's
get_origin of a bare class is None, so insert stores it as a direct entry
under the key H, the very key that also serves as the origin of H[...]
requests. -/
def hBare : PyFunc :=
  { fname := "h_bare", inputs := [], ret := some (.con "H"),
    impl := fun _ => .vtag "H" .vnone }

/-- Container holding only the bare-H provider. -/
def cornerA : Container :=
  (mkContainer [hBare]).toOption.getD { providers := [], cache := [] }

/-- Container holding only the generic H provider. -/
def cornerB : Container :=
  (mkContainer [genericH]).toOption.getD { providers := [], cache := [] }

/-- Invariant of one scheduler step: the keys whose providers were invoked
were not memoised before, are pairwise distinct, are memoised afterwards,
and existing memo entries survive unchanged. -/
def EvalInv (memo memo' : Memo) (tr : List TypeExpr) : Prop :=
  (∀ k, k ∈ tr → alookup memo k = none) ∧
  tr.Nodup ∧
  (∀ k, k ∈ tr → (alookup memo' k).isSome = true) ∧
  (∀ k v, alookup memo k = some v → alookup memo' k = some v)

theorem cyc_diverges (fuel : Nat) :
    getF fuel cycC (.con "int") = none ∧ getF fuel cycC (.con "float") = none := by
  induction fuel with
  | zero => exact ⟨rfl, rfl⟩
  | succ f ih =>
    have hint : getF (Nat.succ f) cycC (.con "int") =
        finishGet (.con "int") cycG
          (callArgsAux (getF f) [] cycC [("x", TypeExpr.con "float")]) := rfl
    have hflt : getF (Nat.succ f) cycC (.con "float") =
        finishGet (.con "float") cycF
          (callArgsAux (getF f) [] cycC [("x", TypeExpr.con "int")]) := rfl
    constructor
    · rw [hint]
      have hca : callArgsAux (getF f) [] cycC [("x", TypeExpr.con "float")] = none := by
        simp [callArgsAux, substInput, ih.2]
      rw [hca]
      rfl
    · rw [hflt]
      have hca : callArgsAux (getF f) [] cycC [("x", TypeExpr.con "int")] = none := by
        simp [callArgsAux, substInput, ih.1]
      rw [hca]
      rfl

theorem lookupLast_cons {α β : Type} [DecidableEq α] (a : α) (b : β)
    (rest : List (α × β)) (k : α) :
    lookupLast ((a, b) :: rest) k =
      match lookupLast rest k with
      | some v => some v
      | none => if k = a then some b else none := rfl

theorem lookupLast_zip_not_mem (args req : List TypeArg) (v : String)
    (h : TypeArg.tvar v ∉ args) :
    lookupLast (args.zip req) (.tvar v) = none := by
  induction args generalizing req with
  | nil => rfl
  | cons a as ih =>
    cases req with
    | nil => rfl
    | cons r rs =>
      have h1 : TypeArg.tvar v ∉ as := fun hm => h (List.mem_cons_of_mem _ hm)
      have h2 : TypeArg.tvar v ≠ a := fun he => h (he ▸ List.mem_cons_self _ _)
      rw [List.zip_cons_cons, lookupLast_cons, ih rs h1]
      simp [h2]

theorem lookupLast_zip_mem (args req : List TypeArg) (v : String) (r : TypeArg)
    (hnd : (args.filterMap tvarName).Nodup)
    (hmem : (TypeArg.tvar v, r) ∈ args.zip req) :
    lookupLast (args.zip req) (.tvar v) = some r := by
  induction args generalizing req with
  | nil => simp at hmem
  | cons a as ih =>
    cases req with
    | nil => simp at hmem
    | cons x rs =>
      rw [List.zip_cons_cons] at hmem
      rw [List.zip_cons_cons, lookupLast_cons]
      rcases List.mem_cons.mp hmem with heq | hrest
      · obtain ⟨ha, hx⟩ := Prod.mk.inj heq
        subst hx
        have ha' : a = TypeArg.tvar v := ha.symm
        subst ha'
        have hv : v ∉ as.filterMap tvarName := by
          have he : ((TypeArg.tvar v :: as).filterMap tvarName) =
              v :: as.filterMap tvarName := by simp [tvarName]
          rw [he] at hnd
          exact (List.nodup_cons.mp hnd).1
        have hnotin : TypeArg.tvar v ∉ as := fun hm =>
          hv (List.mem_filterMap.mpr ⟨TypeArg.tvar v, hm, rfl⟩)
        rw [lookupLast_zip_not_mem as rs v hnotin]
        simp
      · have hnd' : (as.filterMap tvarName).Nodup := by
          cases a with
          | con s => simpa [tvarName] using hnd
          | tvar u =>
            have he : ((TypeArg.tvar u :: as).filterMap tvarName) =
                u :: as.filterMap tvarName := by simp [tvarName]
            rw [he] at hnd
            exact (List.nodup_cons.mp hnd).2
        rw [ih rs hnd' hrest]

theorem substArg_list (bound : List (TypeArg × TypeArg)) (args req : List TypeArg)
    (hlen : args.length = req.length)
    (hcompat : isCompatibleTypeTuple req args = true)
    (hb : ∀ v r, (TypeArg.tvar v, r) ∈ args.zip req →
      lookupLast bound (.tvar v) = some r) :
    args.map (substArg bound) = req := by
  induction args generalizing req with
  | nil =>
    cases req with
    | nil => rfl
    | cons r rs => simp at hlen
  | cons a as ih =>
    cases req with
    | nil => simp at hlen
    | cons r rs =>
      have hlen' : as.length = rs.length := by simpa using hlen
      cases a with
      | tvar v =>
        have hcompat' : isCompatibleTypeTuple rs as = true := by
          simpa [isCompatibleTypeTuple] using hcompat
        have hhead : lookupLast bound (.tvar v) = some r :=
          hb v r (by rw [List.zip_cons_cons]; exact List.mem_cons_self _ _)
        have htail := ih rs hlen' hcompat'
          (fun v' r' hm => hb v' r'
            (by rw [List.zip_cons_cons]; exact List.mem_cons_of_mem _ hm))
        simp [substArg, hhead, htail]
      | con s =>
        have hcompat2 := hcompat
        simp only [isCompatibleTypeTuple] at hcompat2
        have hre : r = TypeArg.con s := by
          rcases Bool.and_eq_true_iff.mp hcompat2 with ⟨hb1, _⟩
          exact eq_of_beq hb1
        have hcompat' : isCompatibleTypeTuple rs as = true :=
          (Bool.and_eq_true_iff.mp hcompat2).2
        have htail := ih rs hlen' hcompat'
          (fun v' r' hm => hb v' r'
            (by rw [List.zip_cons_cons]; exact List.mem_cons_of_mem _ hm))
        simp [substArg, hre, htail]

theorem evalInv_nil (m : Memo) : EvalInv m m [] :=
  ⟨fun _ h => absurd h (List.not_mem_nil _), List.nodup_nil,
   fun _ h => absurd h (List.not_mem_nil _), fun _ _ h => h⟩

theorem evalInv_comp {m m1 m2 : Memo} {t1 t2 : List TypeExpr}
    (h1 : EvalInv m m1 t1) (h2 : EvalInv m1 m2 t2) :
    EvalInv m m2 (t1 ++ t2) := by
  obtain ⟨a1, n1, s1, p1⟩ := h1
  obtain ⟨a2, n2, s2, p2⟩ := h2
  refine ⟨?_, ?_, ?_, ?_⟩
  · intro k hk
    rcases List.mem_append.mp hk with hk1 | hk2
    · exact a1 k hk1
    · cases hm : alookup m k with
      | none => rfl
      | some v => exact absurd (p1 k v hm) (by simp [a2 k hk2])
  · refine List.Nodup.append n1 n2 ?_
    intro k hk1 hk2
    have hs := s1 k hk1
    have ha := a2 k hk2
    rw [ha] at hs
    simp at hs
  · intro k hk
    rcases List.mem_append.mp hk with hk1 | hk2
    · have hs := s1 k hk1
      cases hm : alookup m1 k with
      | none => rw [hm] at hs; simp at hs
      | some v => rw [p2 k v hm]; rfl
    · exact s2 k hk2
  · intro k v hm
    exact p2 k v (p1 k v hm)

theorem evalInv_push {m : Memo} {tp : TypeExpr} {v : Value}
    (h : alookup m tp = none) :
    EvalInv m ((tp, v) :: m) [tp] := by
  refine ⟨?_, List.nodup_singleton _, ?_, ?_⟩
  · intro k hk
    rw [List.mem_singleton.mp hk]
    exact h
  · intro k hk
    rw [List.mem_singleton.mp hk]
    simp [alookup]
  · intro k w hm
    have hne : k ≠ tp := fun he => by rw [he, h] at hm; cases hm
    simp [alookup, hne, hm]

theorem evalDepsAux_inv
    (ev : Memo → TypeExpr → Option (Except Err (Value × Memo × List TypeExpr)))
    (hev : ∀ memo tp v memo' tr, ev memo tp = some (.ok (v, memo', tr)) →
      EvalInv memo memo' tr) :
    ∀ keys memo vs memo' tr,
      evalDepsAux ev memo keys = some (.ok (vs, memo', tr)) →
      EvalInv memo memo' tr := by
  intro keys
  induction keys with
  | nil =>
    intro memo vs memo' tr h
    simp only [evalDepsAux, Option.some.injEq, Except.ok.injEq, Prod.mk.injEq] at h
    obtain ⟨-, hm, ht⟩ := h
    rw [← hm, ← ht]
    exact evalInv_nil memo
  | cons k rest ih =>
    intro memo vs memo' tr h
    simp only [evalDepsAux] at h
    split at h
    · cases h
    · cases h
    · next v1 memo1 tr1 heq1 =>
      split at h
      · cases h
      · cases h
      · next vs2 memo2 tr2 heq2 =>
        simp only [Option.some.injEq, Except.ok.injEq, Prod.mk.injEq] at h
        obtain ⟨-, hm, ht⟩ := h
        rw [← hm, ← ht]
        exact evalInv_comp (hev _ _ _ _ _ heq1) (ih _ _ _ _ heq2)

theorem evalK_inv :
    ∀ fuel g memo tp v memo' tr,
      evalK fuel g memo tp = some (.ok (v, memo', tr)) →
      EvalInv memo memo' tr := by
  intro fuel
  induction fuel with
  | zero =>
    intro g memo tp v memo' tr h
    cases h
  | succ f ih =>
    intro g memo tp v memo' tr h
    have hb : evalBody (evalK f g) g memo tp = some (.ok (v, memo', tr)) := h
    unfold evalBody at hb
    split at hb
    · next v0 hm0 =>
      simp only [Option.some.injEq, Except.ok.injEq, Prod.mk.injEq] at hb
      obtain ⟨-, hm, ht⟩ := hb
      rw [← hm, ← ht]
      exact evalInv_nil memo
    · next hm0 =>
      split at hb
      · cases hb
      · next prov deps hg =>
        split at hb
        · cases hb
        · cases hb
        · next vals memo1 tr1 heq1 =>
          have hinv1 : EvalInv memo memo1 tr1 :=
            evalDepsAux_inv (evalK f g)
              (fun m t vv m' trr hh => ih g m t vv m' trr hh)
              deps memo vals memo1 tr1 heq1
          split at hb
          · next v4 hm4 =>
            simp only [Option.some.injEq, Except.ok.injEq, Prod.mk.injEq] at hb
            obtain ⟨-, hm, ht⟩ := hb
            rw [← hm, ← ht]
            exact hinv1
          · next hm4 =>
            simp only [Option.some.injEq, Except.ok.injEq, Prod.mk.injEq] at hb
            obtain ⟨-, hm, ht⟩ := hb
            rw [← hm, ← ht]
            exact evalInv_comp hinv1 (evalInv_push hm4)

theorem finishGet_ok {tp : TypeExpr} {prov : PyFunc}
    {r : Option (Except Err (List TypeExpr × Container))} {n : Node}
    {c' : Container} (h : finishGet tp prov r = some (.ok (n, c'))) :
    alookup c'.cache tp = some n := by
  unfold finishGet at h
  split at h
  · cases h
  · cases h
  · next deps c0 =>
    simp only [Option.some.injEq, Except.ok.injEq, Prod.mk.injEq] at h
    obtain ⟨hn, hc⟩ := h
    rw [← hc, ← hn]
    simp [alookup]

theorem getF_caches {fuel : Nat} {c : Container} {tp : TypeExpr} {n : Node}
    {c' : Container} (h : getF fuel c tp = some (.ok (n, c'))) :
    alookup c'.cache tp = some n := by
  cases fuel with
  | zero => cases h
  | succ f =>
    have hb : getBody (getF f) c tp = some (.ok (n, c')) := h
    unfold getBody at hb
    split at hb
    · next node hm =>
      simp only [Option.some.injEq, Except.ok.injEq, Prod.mk.injEq] at hb
      obtain ⟨hn, hc⟩ := hb
      rw [← hc, ← hn]
      exact hm
    · next hm =>
      split at hb
      · exact finishGet_ok hb
      · cases hb
      · split at hb
        · cases hb
        · split at hb
          · cases hb
          · cases hb
          · split at hb
            · cases hb
            · exact finishGet_ok hb
            · cases hb

theorem getF_cached {f : Nat} {c : Container} {tp : TypeExpr} {n : Node}
    (h : alookup c.cache tp = some n) :
    getF (Nat.succ f) c tp = some (.ok (n, c)) := by
  show getBody (getF f) c tp = some (.ok (n, c))
  unfold getBody
  rw [h]

theorem insert_keeps_cache {c : Container} {p : PyFunc} {c'' : Container}
    (h : Container.insert c p = .ok c'') : c''.cache = c.cache := by
  unfold Container.insert at h
  split at h
  · cases h
  · simp only [Except.ok.injEq] at h
    rw [← h]

/-- Claim C1, corrected.  The source performs no specificity filtering: with
generic(x: V) -> H[V] and special(x: B) -> H[B], requesting H[A] resolves to
the generic provider and computes its output, while requesting H[B] matches
both candidates and raises KeyError instead of using the specialised one. -/
theorem claimC1_thm :
    Container.compute s5c 20 (.app "H" [.con "A"]) =
      some (.ok (.vtag "generic" (.vtag "A" .vnone))) ∧
    getF 10 s5c (.app "H" [.con "B"]) =
      some (.error (.keyErrorMultiple (.app "H" [.con "B"]) [.con "B"])) :=
  ⟨rfl, rfl⟩

/-- Claim C1, counterexample to the claim as stated: in the S5 setup the
request H[B] does not return the specialised provider's output; it raises
KeyError because both candidates match and none is removed. -/
theorem claimC1_cex :
    Container.compute s5c 20 (.app "H" [.con "B"]) =
      some (.error (.keyErrorMultiple (.app "H" [.con "B"]) [.con "B"])) ∧
    Container.compute s5c 20 (.app "H" [.con "B"]) ≠
      some (.ok (.vtag "special" (.vtag "B" .vnone))) := by
  have h : Container.compute s5c 20 (TypeExpr.app "H" [TypeArg.con "B"]) =
      some (.error (.keyErrorMultiple (.app "H" [.con "B"]) [.con "B"])) := rfl
  refine ⟨h, ?_⟩
  rw [h]
  simp

/-- Claim C2, corrected.  insert never replaces: a concrete output key that
is already registered raises ValueError, and so does a generic output key
whose argument tuple is already present under the origin; only an insert at
a fresh key succeeds, and resolution of that key then uses the inserted
provider. -/
theorem claimC2_thm :
    (∀ (c : Container) (f : PyFunc) (key : TypeExpr),
      f.ret = some key → getOrigin key = none →
      (alookup c.providers key).isSome = true →
      Container.insert c f = .error (.valueErrorExists key)) ∧
    (∀ (c : Container) (f : PyFunc) (key : TypeExpr),
      f.ret = some key → getOrigin key = none →
      alookup c.providers key = none →
      Container.insert c f =
        .ok { c with providers := c.providers ++ [(key, .direct f)] }) ∧
    Container.insert s5c genericH =
      .error (.valueErrorExists (.app "H" [.tvar "V"])) ∧
    Container.compute c2after 3 (.con "int") = some (.ok (.vint 3)) := by
  refine ⟨?_, ?_, rfl, rfl⟩
  · intro c f key h1 h2 h3
    simp [Container.insert, insertProviders, h1, h2, h3]
  · intro c f key h1 h2 h3
    simp [Container.insert, insertProviders, h1, h2, h3]

/-- Claim C2, witness: a duplicate concrete insert raises ValueError and a
fresh insert succeeds, by the general theorem at concrete inputs. -/
theorem claimC2_wit :
    Container.insert s2c { fInt with fname := "f2" } =
      .error (.valueErrorExists (.con "int")) ∧
    Container.insert { providers := [], cache := [] } fInt =
      .ok { providers := [(TypeExpr.con "int", Entry.direct fInt)], cache := [] } :=
  ⟨claimC2_thm.1 s2c { fInt with fname := "f2" } (.con "int") rfl rfl rfl,
   claimC2_thm.2.1 { providers := [], cache := [] } fInt (.con "int") rfl rfl rfl⟩

/-- Claim C2, counterexample to the claim as stated: inserting a provider at
the already-taken concrete key int does not replace the old provider; the
insert fails with ValueError. -/
theorem claimC2_cex :
    Container.insert s2c { fInt with fname := "f_new" } =
      .error (.valueErrorExists (.con "int")) ∧
    exceptOk (Container.insert s2c { fInt with fname := "f_new" }) = false :=
  ⟨rfl, rfl⟩

/-- Claim C3, corrected.  Building the task graph does not terminate on the
cyclic registry of S6: the source keeps no in-progress set, so _get recurses
without bound (a RecursionError in Python); at every recursion depth the
build of int yields no result, and compute is never reached, so no
CycleError exists. -/
theorem claimC3_thm (fuel : Nat) :
    getF fuel cycC (.con "int") = none ∧
    Container.compute cycC fuel (.con "int") = none := by
  have h := cyc_diverges fuel
  refine ⟨h.1, ?_⟩
  unfold Container.compute
  rw [h.1]

/-- Claim C3, witness: the general theorem at depth 7. -/
theorem claimC3_wit :
    getF 7 cycC (.con "int") = none ∧
    Container.compute cycC 7 (.con "int") = none :=
  claimC3_thm 7

/-- Claim C3, counterexample to the claim as stated: with providers
f(x: int) -> float and g(x: float) -> int, get(int) never succeeds at any
recursion depth, so the graph is never built and compute(int) can never
report a CycleError. -/
theorem claimC3_cex :
    ¬ ∃ (fuel : Nat) (r : Except Err (Node × Container)),
      getF fuel cycC (.con "int") = some r := by
  rintro ⟨fuel, r, h⟩
  rw [(cyc_diverges fuel).1] at h
  cases h

/-- Claim C4, corrected and narrowed to where the source is sound: when the
variables in a candidate's output argument tuple are pairwise distinct,
compatibility of the requested tuple implies that substituting the bindings
dict(zip(args, requested)) into the output key reproduces the requested key
exactly.  With a repeated variable the source neither rejects the candidate
nor keeps the substitution property, as the counterexample shows. -/
theorem claimC4_thm (o : String) (args req : List TypeArg)
    (hlen : args.length = req.length)
    (hcompat : isCompatibleTypeTuple req args = true)
    (hnd : (args.filterMap tvarName).Nodup) :
    specSubstitute (args.zip req) (.app o args) = .app o req := by
  have hmap := substArg_list (args.zip req) args req hlen hcompat
    (fun v r hm => lookupLast_zip_mem args req v r hnd hm)
  show TypeExpr.app o (args.map (substArg (args.zip req))) = TypeExpr.app o req
  rw [hmap]

/-- Claim C4, witness: the theorem at the S4 binding of p1's output
A[int, T1] against the request A[int, float]. -/
theorem claimC4_wit :
    specSubstitute ([TypeArg.con "int", TypeArg.tvar "T1"].zip
        [TypeArg.con "int", TypeArg.con "float"])
      (.app "A" [.con "int", .tvar "T1"]) =
      .app "A" [.con "int", .con "float"] :=
  claimC4_thm "A" [.con "int", .tvar "T1"] [.con "int", .con "float"]
    rfl rfl (by decide)

/-- Claim C4, counterexample to the claim as stated: the candidate with
output A2[T1, T1] is not rejected for the request A2[int, float]; the tuples
pass the compatibility check, resolution succeeds, and substituting the
accumulated binding (T1 bound last to float) into the output key yields
A2[float, float], not the requested key. -/
theorem claimC4_cex :
    isCompatibleTypeTuple [TypeArg.con "int", TypeArg.con "float"]
      [TypeArg.tvar "T1", TypeArg.tvar "T1"] = true ∧
    resOk (getF 10 dupC (.app "A2" [.con "int", .con "float"])) = true ∧
    specSubstitute ([TypeArg.tvar "T1", TypeArg.tvar "T1"].zip
        [TypeArg.con "int", TypeArg.con "float"])
      (.app "A2" [.tvar "T1", .tvar "T1"]) =
      .app "A2" [.con "float", .con "float"] ∧
    TypeExpr.app "A2" [TypeArg.con "float", TypeArg.con "float"] ≠
      TypeExpr.app "A2" [TypeArg.con "int", TypeArg.con "float"] :=
  ⟨rfl, rfl, rfl, by decide⟩

/-- Claim C5, confirmed.  In any scheduler run the invocation trace has no
duplicate keys, so each task node of the resolved graph is invoked at most
once per compute call, also with several requested keys sharing a memo; in
the S2 scenario compute(str) returns the string built from 3 and 1.5, the
trace is int, float, str, and the provider of int is invoked exactly
once. -/
theorem claimC5_thm :
    (∀ fuel g keys vs memo' tr,
      evalDeps fuel g [] keys = some (.ok (vs, memo', tr)) → tr.Nodup) ∧
    Container.compute s2c 20 (.con "str") = some (.ok (.vstr "3;1.5")) ∧
    s2trace = [.con "int", .con "float", .con "str"] ∧
    s2trace.count (.con "int") = 1 := by
  refine ⟨?_, rfl, rfl, rfl⟩
  intro fuel g keys vs memo' tr h
  exact (evalDepsAux_inv (evalK fuel g)
    (fun m t v m' trr hh => evalK_inv fuel g m t v m' trr hh)
    keys [] vs memo' tr h).2.1

/-- Claim C5, witness: the general trace property at the concrete S2 run. -/
theorem claimC5_wit :
    s2trace.Nodup ∧ s2trace.count (.con "int") = 1 := by
  have h : evalDeps 20 s2graph [] [TypeExpr.con "str"] =
      some (.ok (s2vals, s2memo, s2trace)) := rfl
  exact ⟨claimC5_thm.1 20 s2graph [TypeExpr.con "str"] s2vals s2memo s2trace h,
    claimC5_thm.2.2.2⟩

/-- Claim C6, corrected.  There is no specificity filtering and no distinct
AmbiguousProvider error: in the S4 setup, A[int, int] and A[float, float]
resolve to p1 and p2 respectively, while A[int, float] matches both
candidates and raises a plain KeyError. -/
theorem claimC6_thm :
    Container.compute s4c 20 (.app "A" [.con "int", .con "int"]) =
      some (.ok (.vtag "p1" (.vint 1))) ∧
    Container.compute s4c 20 (.app "A" [.con "float", .con "float"]) =
      some (.ok (.vtag "p2" (.vfloat 2))) ∧
    getF 10 s4c (.app "A" [.con "int", .con "float"]) =
      some (.error (.keyErrorMultiple (.app "A" [.con "int", .con "float"])
        [.con "int", .con "float"])) ∧
    Err.pyClass (.keyErrorMultiple (.app "A" [.con "int", .con "float"])
      [.con "int", .con "float"]) = "KeyError" :=
  ⟨rfl, rfl, rfl, rfl⟩

/-- Claim C6, counterexample to the claim as stated: with the generic
candidate B[T] and the strictly more specific candidate B[int], the claim
says the less specific one is removed and resolution of B[int] succeeds
with the lone survivor; the source instead raises KeyError because both
candidates match and neither is removed. -/
theorem claimC6_cex :
    getF 10 specC (.app "B" [.con "int"]) =
      some (.error (.keyErrorMultiple (.app "B" [.con "int"]) [.con "int"])) ∧
    resOk (getF 10 specC (.app "B" [.con "int"])) = false :=
  ⟨rfl, rfl⟩

/-- Claim C7, corrected.  A request for a key with no provider registered,
directly or via a unifying generic candidate, always fails and never falls
back to constructing a default value, but the error is UnsatisfiedRequirement
only when the key has no entry of its own and its origin entry, if any, is a
generic table with no compatible candidate; when the key's origin holds a
bare direct provider the failure is the AttributeError of provider.items(),
and when the requested key itself is a bare origin holding generic
subproviders the failure is the TypeError of get_type_hints on the dict. -/
theorem claimC7_thm (fuel : Nat) (c : Container) (tp : TypeExpr)
    (hcache : alookup c.cache tp = none)
    (hnodirect : ∀ f, alookup c.providers tp ≠ some (.direct f))
    (hnogen : ∀ o subs, getOrigin tp = some o →
      alookup c.providers o = some (.generic subs) →
      subs.filter (fun p => isCompatibleTypeTuple (getArgs tp) p.1) = []) :
    (∃ e, getF (Nat.succ fuel) c tp = some (.error e)) ∧
    (alookup c.providers tp = none →
      (∀ o f', getOrigin tp = some o →
        alookup c.providers o ≠ some (.direct f')) →
      getF (Nat.succ fuel) c tp =
        some (.error (.unsatisfiedRequirement tp))) ∧
    (∀ subs, alookup c.providers tp = some (.generic subs) →
      getF (Nat.succ fuel) c tp = some (.error .typeErrorHints)) ∧
    (∀ o f', alookup c.providers tp = none → getOrigin tp = some o →
      alookup c.providers o = some (.direct f') →
      getF (Nat.succ fuel) c tp = some (.error .attributeErrorItems)) := by
  have h3 : ∀ subs, alookup c.providers tp = some (.generic subs) →
      getF (Nat.succ fuel) c tp = some (.error .typeErrorHints) := by
    intro subs hp
    show getBody (getF fuel) c tp = some (.error .typeErrorHints)
    simp only [getBody, hcache, hp]
  have h4 : ∀ o f', alookup c.providers tp = none → getOrigin tp = some o →
      alookup c.providers o = some (.direct f') →
      getF (Nat.succ fuel) c tp = some (.error .attributeErrorItems) := by
    intro o f' hnone ho hdir
    show getBody (getF fuel) c tp = some (.error .attributeErrorItems)
    simp only [getBody, hcache, hnone, ho, hdir]
  have h2 : alookup c.providers tp = none →
      (∀ o f', getOrigin tp = some o →
        alookup c.providers o ≠ some (.direct f')) →
      getF (Nat.succ fuel) c tp =
        some (.error (.unsatisfiedRequirement tp)) := by
    intro hnone hnodir2
    show getBody (getF fuel) c tp = some (.error (.unsatisfiedRequirement tp))
    cases ho : getOrigin tp with
    | none => simp only [getBody, hcache, hnone, ho]
    | some o =>
      cases he : alookup c.providers o with
      | none => simp only [getBody, hcache, hnone, ho, he]
      | some e =>
        cases e with
        | direct f' => exact absurd he (hnodir2 o f' ho)
        | generic subs =>
          have hf := hnogen o subs ho he
          simp only [getBody, hcache, hnone, ho, he, hf]
  refine ⟨?_, h2, h3, h4⟩
  cases hp : alookup c.providers tp with
  | none =>
    cases ho : getOrigin tp with
    | none =>
      exact ⟨_, h2 hp (fun o' f' ho' hd => by rw [ho] at ho'; cases ho')⟩
    | some o =>
      cases he : alookup c.providers o with
      | none =>
        refine ⟨_, h2 hp (fun o' f' ho' hd => ?_)⟩
        rw [ho] at ho'
        injection ho' with hh
        subst hh
        rw [he] at hd
        simp at hd
      | some e =>
        cases e with
        | direct f' => exact ⟨_, h4 o f' hp ho he⟩
        | generic subs =>
          refine ⟨_, h2 hp (fun o' f' ho' hd => ?_)⟩
          rw [ho] at ho'
          injection ho' with hh
          subst hh
          rw [he] at hd
          simp at hd
  | some e =>
    cases e with
    | direct f => exact absurd hp (hnodirect f)
    | generic subs => exact ⟨_, h3 subs hp⟩

/-- Claim C7, witness: the theorem at an empty container and the request q,
where the UnsatisfiedRequirement case applies. -/
theorem claimC7_wit :
    getF 1 { providers := [], cache := [] } (.con "q") =
      some (.error (.unsatisfiedRequirement (.con "q"))) :=
  (claimC7_thm 0 { providers := [], cache := [] } (.con "q") rfl
    (fun f h => by simp [alookup] at h)
    (fun o subs ho he => by simp [alookup] at he)).2.1 rfl
    (fun o f' ho he => by simp [alookup] at he)

/-- Claim C7, counterexample to the claim as stated: with a provider
annotated to return the bare generic class H, requesting H[int] finds no
provider for H[int], directly or via unification, yet fails with
AttributeError, not UnsatisfiedRequirement; and with only the generic
provider for H[V], requesting bare H finds no provider for H yet fails with
TypeError. -/
theorem claimC7_cex :
    getF 5 cornerA (.app "H" [.con "int"]) =
      some (.error .attributeErrorItems) ∧
    getF 5 cornerA (.app "H" [.con "int"]) ≠
      some (.error (.unsatisfiedRequirement (.app "H" [.con "int"]))) ∧
    getF 5 cornerB (.con "H") = some (.error .typeErrorHints) ∧
    getF 5 cornerB (.con "H") ≠
      some (.error (.unsatisfiedRequirement (.con "H"))) := by
  have h1 : getF 5 cornerA (TypeExpr.app "H" [TypeArg.con "int"]) =
      some (.error .attributeErrorItems) := rfl
  have h2 : getF 5 cornerB (TypeExpr.con "H") =
      some (.error .typeErrorHints) := rfl
  refine ⟨h1, ?_, h2, ?_⟩
  · rw [h1]
    simp
  · rw [h2]
    simp

/-- Claim C8, corrected.  An input annotation whose type variable is not
bound by the unification of the output key fails with the KeyError of the
Python dict lookup bound[tp], which names only the variable; the source has
no distinct UnboundTypeVar error and does not name the provider. -/
theorem claimC8_thm :
    (∀ (g : Container → TypeExpr → Option (Except Err (Node × Container)))
       (c : Container) (rest : List (String × TypeExpr))
       (bound : List (TypeArg × TypeArg)) (nm : String) (v : String),
      lookupLast bound (.tvar v) = none →
      callArgsAux g bound c ((nm, .tvar v) :: rest) =
        some (.error (.keyErrorUnboundVar v))) ∧
    getF 10 unboundC (.app "A3" [.con "int"]) =
      some (.error (.keyErrorUnboundVar "T2")) := by
  refine ⟨?_, rfl⟩
  intro g c rest bound nm v h
  simp only [callArgsAux, substInput, h]

/-- Claim C8, witness: the general theorem at a concrete unbound variable. -/
theorem claimC8_wit :
    callArgsAux (getF 3) [] { providers := [], cache := [] }
      [("x", TypeExpr.tvar "Q")] = some (.error (.keyErrorUnboundVar "Q")) :=
  claimC8_thm.1 (getF 3) { providers := [], cache := [] } [] [] "x" "Q" rfl

/-- Claim C8, counterexample to the claim as stated: resolving A3[int]
against bad(x: T2) -> A3[T1] fails, but with a KeyError naming only T2, the
same Python exception class as the multiple-candidates failure, not a
distinct UnboundTypeVar error identifying the provider. -/
theorem claimC8_cex :
    getF 10 unboundC (.app "A3" [.con "int"]) =
      some (.error (.keyErrorUnboundVar "T2")) ∧
    Err.pyClass (.keyErrorUnboundVar "T2") = "KeyError" ∧
    Err.pyClass (.keyErrorUnboundVar "T2") =
      Err.pyClass (.keyErrorMultiple (.app "A3" [.con "int"]) [.con "int"]) :=
  ⟨rfl, rfl, rfl⟩

/-- Claim C9, corrected.  A callable without a return annotation is rejected,
but with the KeyError of the hints-dict lookup, not a distinct
InvalidProvider error; and a callable whose annotation is None-like is not
rejected at all: get_type_hints normalises it to NoneType and insert
registers the provider under that key. -/
theorem claimC9_thm :
    (∀ (c : Container) (f : PyFunc), f.ret = none →
      Container.insert c f = .error .keyErrorReturn) ∧
    mkContainer [noneRetP] = .ok noneC ∧
    alookup noneC.providers (.con "NoneType") = some (.direct noneRetP) := by
  refine ⟨?_, rfl, rfl⟩
  intro c f h
  simp only [Container.insert, insertProviders, h]

/-- Claim C9, witness: the general theorem at a hint-less callable. -/
theorem claimC9_wit :
    Container.insert { providers := [], cache := [] } noHintP =
      .error .keyErrorReturn :=
  claimC9_thm.1 { providers := [], cache := [] } noHintP rfl

/-- Claim C9, counterexample to the claim as stated: inserting the
None-returning callable succeeds and the provider ends up registered under
NoneType, although the claim says no such provider is ever registered. -/
theorem claimC9_cex :
    exceptOk (Container.insert { providers := [], cache := [] } noneRetP) =
      true ∧
    alookup noneC.providers (.con "NoneType") = some (.direct noneRetP) :=
  ⟨rfl, rfl⟩

/-- Claim C10, confirmed.  A successful get leaves its task in the cache, a
later get of the same key returns the identical cached node with the state
unchanged, and a successful insert of any further provider never touches the
cache, so the key still resolves to the node built from the providers in
effect at the first call. -/
theorem claimC10_thm (fuel : Nat) (c : Container) (tp : TypeExpr) (n : Node)
    (c' : Container) (h : getF fuel c tp = some (.ok (n, c'))) :
    alookup c'.cache tp = some n ∧
    (∀ f2, getF (Nat.succ f2) c' tp = some (.ok (n, c'))) ∧
    (∀ p c'', Container.insert c' p = .ok c'' →
      c''.cache = c'.cache ∧
      ∀ f3, getF (Nat.succ f3) c'' tp = some (.ok (n, c''))) := by
  have hc := getF_caches h
  refine ⟨hc, fun f2 => getF_cached hc, fun p c'' hi => ?_⟩
  have hcc := insert_keeps_cache hi
  refine ⟨hcc, fun f3 => getF_cached ?_⟩
  rw [hcc]
  exact hc

/-- Claim C10, witness: the theorem at the S2 container and the key int. -/
theorem claimC10_wit :
    alookup c10cont.cache (.con "int") = some c10node ∧
    getF 3 c10cont (.con "int") = some (.ok (c10node, c10cont)) := by
  have h : getF 5 s2c (TypeExpr.con "int") = some (.ok (c10node, c10cont)) := rfl
  have t := claimC10_thm 5 s2c (TypeExpr.con "int") c10node c10cont h
  exact ⟨t.1, t.2.1 2⟩
